import Mathlib

/-!
Shallow embedding of `src/Code/ensemble_system/pdv.h`, the PDV (powered
delivery vehicle) class of the wireless-sensor-node routing project.

The header gives inline bodies for `calcEnergyCost` and the three state
updaters, and the numeric parameters `min_charge_num`, `pdv_power`,
`f_speed` and the initial energy.  The bodies of `flightSimulation`,
`taskCheck` and `iptEnergyCost`, as well as `sensornode.h` and the
geometry header, are not part of the sources; those parts are modelled
from the specification and are marked as such in their doc comments.

C++ `double` values are embedded as rational numbers, so every embedded
value is finite and arithmetic is exact.
-/

namespace Wsnr

/-- Modelled from the spec: the `Point` geometry class lives in a header
not present under the sources; the spec treats it as an immutable
coordinate tuple with a Euclidean distance function.  The distance
function itself is kept abstract and is passed to the driver as a
parameter. -/
structure Point where
  x : ℚ
  y : ℚ
deriving DecidableEq

/-- Modelled from the spec: `sensornode.h` is not present under the
sources; the spec lists a sensor node's position, residual energy,
capacitance, voltages and the service flags. -/
structure SensorNode where
  pos : Point
  residual_energy : ℚ
  capacitance : ℚ
  v_max : ℚ
  v_cur : ℚ
  requests_service : Bool
  charged : Bool
deriving DecidableEq

/-- Minimum number of sensor nodes to charge, private field
`min_charge_num` of `PDV` (pdv.h line 128). -/
def min_charge_num : ℕ := 20

/-- PDV power rating in W, private field `pdv_power` of `PDV`
(pdv.h line 130).  It is initialised to 363.888 and never reassigned in
the header, so it is embedded as a constant. -/
def pdv_power : ℚ := 363.888

/-- Maximum approaching speed in m/h, private field `f_speed` of `PDV`
(pdv.h line 131), initialised to 2.16e4 and never reassigned. -/
def f_speed : ℚ := 2.16e4

/-- Initial PDV energy in Wh, the initialiser of the public field
`f_eng` (pdv.h line 41). -/
def full_energy : ℚ := 187

/-- Embeds the `PDV` object state: the four public fields of pdv.h
lines 39-42 together with the protected accumulators inherited from
`SensorNode` that the updater methods write
(`flight_time_`, `pdv_energy_`, `flight_distance_`). -/
structure PDV where
  pos : Point
  f_time : ℚ
  f_eng : ℚ
  f_dist : ℚ
  flight_time_ : ℚ
  pdv_energy_ : ℚ
  flight_distance_ : ℚ
deriving DecidableEq

/-- Embeds `calcEnergyCost` (pdv.h line 70):
`return this->pdv_power * (t + 5.6e-3);`. -/
def calcEnergyCost (t : ℚ) : ℚ := pdv_power * (t + 5.6e-3)

/-- Embeds `updateFlightTime(const double& t)` (pdv.h line 84):
`this->flight_time_ += t;`. -/
def PDV.updateFlightTime (p : PDV) (t : ℚ) : PDV :=
  { p with flight_time_ := p.flight_time_ + t }

/-- Embeds the two-argument overload `updateFlightTime(t1, t2)`
(pdv.h line 90): `this->flight_time_ += (t1 + t2);`. -/
def PDV.updateFlightTime2 (p : PDV) (t1 t2 : ℚ) : PDV :=
  { p with flight_time_ := p.flight_time_ + (t1 + t2) }

/-- Embeds `updateEnergy(const double& e)` (pdv.h line 95):
`this->pdv_energy_ -= e;`. -/
def PDV.updateEnergy (p : PDV) (e : ℚ) : PDV :=
  { p with pdv_energy_ := p.pdv_energy_ - e }

/-- Embeds the two-argument overload `updateEnergy(e1, e2)`
(pdv.h line 101): `this->pdv_energy_ -= (e1 + e2);`. -/
def PDV.updateEnergy2 (p : PDV) (e1 e2 : ℚ) : PDV :=
  { p with pdv_energy_ := p.pdv_energy_ - (e1 + e2) }

/-- Embeds `updateFlightDist(const double& d)` (pdv.h line 106):
`this->flight_distance_ += d;`. -/
def PDV.updateFlightDist (p : PDV) (d : ℚ) : PDV :=
  { p with flight_distance_ := p.flight_distance_ + d }

/-- Modelled from the spec: the RF-to-DC conversion efficiency η, a
fixed parameter of the IPT formula whose defining file is not under the
sources; the spec's concrete scenarios use η = 0.5. -/
def eta_rf2dc : ℚ := 0.5

/-- Modelled from the spec: the body of `iptEnergyCost` (declared at
pdv.h line 79) is not under the sources; the spec and the header's
formula comment give
E = C · (v_max − v_cur)² / (2 · η_rf2dc · 3600) in Wh. -/
def iptEnergyCost (sn : SensorNode) : ℚ :=
  sn.capacitance * (sn.v_max - sn.v_cur) ^ 2 / (2 * eta_rf2dc * 3600)

/-- Flight-leg energy for a leg of `d` meters at cruise speed
`f_speed`: the travel time d / v is fed to `calcEnergyCost`
(spec section 4.1). -/
def flightLegCost (d : ℚ) : ℚ := calcEnergyCost (d / f_speed)

/-- Number of catalog nodes whose `requests_service` flag is set. -/
def reqCount (l : List SensorNode) : ℕ :=
  l.countP (·.requests_service)

/-- Modelled from the spec: the body of `taskCheck` (declared at pdv.h
line 59) is not under the sources; the spec refuses to launch exactly
when the number of requesting nodes is below `min_charge_num`. -/
def taskCheck (sn_list : List SensorNode) : Bool :=
  decide (min_charge_num ≤ reqCount sn_list)

/-- The base station, conventionally the origin (spec glossary). -/
def base0 : Point := ⟨0, 0⟩

/-- Modelled from the spec: the observable state of one simulation run
of `flightSimulation` (declared at pdv.h line 122, body not under the
sources): PDV position, flight time, remaining energy, flight distance,
the charged-energy and serviced-node accumulators, the node catalog and
the energy-exhaustion flag. -/
structure SimState where
  pos : Point
  f_time : ℚ
  f_eng : ℚ
  f_dist : ℚ
  charged_e : ℚ
  serviced : ℕ
  catalog : List SensorNode
  exhausted : Bool
deriving DecidableEq

/-- Error kinds reported by the driver (spec section 7). -/
inductive SimError where
  | InsufficientRequests
  | EnergyExhausted
deriving DecidableEq

/-- Result of one driver run: final state, completion percentage and
the reported error, if any. -/
structure SimResult where
  state : SimState
  percent : ℚ
  err : Option SimError
deriving DecidableEq

/-- Modelled from the spec: the energy required at the RTH decision
point for a proposed next node — flight cost to reach it, IPT cost
there, flight cost from it back to base, plus the configured safety
margin (spec section 4.2). -/
def eRequired (dist : Point → Point → ℚ) (base : Point) (es : ℚ)
    (s : SimState) (sn : SensorNode) : ℚ :=
  flightLegCost (dist s.pos sn.pos) + iptEnergyCost sn
    + flightLegCost (dist sn.pos base) + es

/-- Fully-serviced image of a node: capacitor topped up to `v_max`,
request flag cleared, node marked charged (spec section 4.3 step 3). -/
def serviceNode (sn : SensorNode) : SensorNode :=
  { sn with v_cur := sn.v_max, requests_service := false, charged := true }

/-- Modelled from the spec: the EN_ROUTE → CHARGING transition for one
waypoint — advance the position, add the leg time and distance,
subtract the leg and IPT energies, accumulate the charged energy, count
the node as serviced when it was requesting, and replace the catalog
entry by its fully-serviced image (spec section 4.3 step 3). -/
def serviceStep (dist : Point → Point → ℚ) (s : SimState) (i : ℕ)
    (sn : SensorNode) : SimState :=
  let d := dist s.pos sn.pos
  { s with
    pos := sn.pos
    f_time := s.f_time + d / f_speed
    f_dist := s.f_dist + d
    f_eng := s.f_eng - flightLegCost d - iptEnergyCost sn
    charged_e := s.charged_e + iptEnergyCost sn
    serviced := s.serviced + (if sn.requests_service then 1 else 0)
    catalog := s.catalog.set i (serviceNode sn) }

/-- Modelled from the spec: the RTH leg — fly straight to base, adding
the leg time and distance and subtracting the leg energy; when the leg
is infeasible the accounting drains the energy to 0 and flags
exhaustion (spec section 4.3 step 4 and edge cases). -/
def rth (dist : Point → Point → ℚ) (base : Point) (s : SimState) : SimState :=
  let d := dist s.pos base
  let c := flightLegCost d
  if c ≤ s.f_eng then
    { s with pos := base, f_time := s.f_time + d / f_speed,
             f_dist := s.f_dist + d, f_eng := s.f_eng - c }
  else
    { s with pos := base, f_time := s.f_time + d / f_speed,
             f_dist := s.f_dist + d, f_eng := 0, exhausted := true }

/-- Modelled from the spec: the main loop of `flightSimulation` — visit
the path waypoints in order, at each one applying the RTH policy: on
continue, service the waypoint and recurse; on refusal, return to home
immediately; an exhausted path also ends with the RTH leg.  Waypoints
are given as indices into the catalog (the C++ driver matches path
points to catalog nodes); an index with no catalog entry leaves the
state untouched. -/
def runPath (dist : Point → Point → ℚ) (base : Point) (es : ℚ) :
    SimState → List ℕ → SimState
  | s, [] => rth dist base s
  | s, i :: rest =>
    match s.catalog[i]? with
    | none => runPath dist base es s rest
    | some sn =>
      if eRequired dist base es s sn ≤ s.f_eng then
        runPath dist base es (serviceStep dist s i sn) rest
      else
        rth dist base s

/-- Observable states of a run after launch, in order: one state per
serviced waypoint, ending with the post-RTH state. -/
def runTrace (dist : Point → Point → ℚ) (base : Point) (es : ℚ) :
    SimState → List ℕ → List SimState
  | s, [] => [rth dist base s]
  | s, i :: rest =>
    match s.catalog[i]? with
    | none => runTrace dist base es s rest
    | some sn =>
      if eRequired dist base es s sn ≤ s.f_eng then
        serviceStep dist s i sn :: runTrace dist base es (serviceStep dist s i sn) rest
      else
        [rth dist base s]

/-- Initial run state: PDV at base with full energy, zero time and
distance, empty accumulators, the given catalog (spec section 3,
PDV lifecycle). -/
def initState (sn_list : List SensorNode) : SimState :=
  { pos := base0, f_time := 0, f_eng := full_energy, f_dist := 0,
    charged_e := 0, serviced := 0, catalog := sn_list, exhausted := false }

/-- Modelled from the spec: `flightSimulation` (declared at pdv.h
line 122, body not under the sources) — pre-flight `taskCheck`, then
the main loop from the initial state, reporting the completion
percentage 100 · serviced / initially-requesting; on refusal the state
is returned unmodified with 0 % and `InsufficientRequests`. -/
def flightSimulation (dist : Point → Point → ℚ) (es : ℚ)
    (sn_list : List SensorNode) (path : List ℕ) : SimResult :=
  if taskCheck sn_list then
    let s := runPath dist base0 es (initState sn_list) path
    { state := s
      percent := 100 * (s.serviced : ℚ) / (reqCount sn_list : ℚ)
      err := if s.exhausted then some SimError.EnergyExhausted else none }
  else
    { state := initState sn_list, percent := 0,
      err := some SimError.InsufficientRequests }

/-- Concrete distance function for witnesses: everything coincides. -/
def distW : Point → Point → ℚ := fun _ _ => 0

/-- Concrete requesting node for witnesses. -/
def nodeW : SensorNode := ⟨⟨0, 0⟩, 0, 1, 3, 0, true, false⟩

/-- Concrete node already at its target voltage, for witnesses. -/
def chargedNodeW : SensorNode := ⟨⟨1, 0⟩, 0, 1, 3, 3, true, false⟩

/-- C2: for every flight time t the flight-leg energy `calcEnergyCost`
equals the cruise power 363.888 W times (t + 5.6e-3 h); a zero-length
leg still consumes the fixed per-leg overhead 363.888 · 5.6e-3 Wh =
2.0377728 Wh, a strictly positive amount. -/
theorem calcEnergyCost_formula :
    (∀ t : ℚ, calcEnergyCost t = 363.888 * (t + 5.6e-3))
      ∧ calcEnergyCost 0 = 2.0377728
      ∧ flightLegCost 0 = 363.888 * 5.6e-3
      ∧ 0 < calcEnergyCost 0 := by
  refine ⟨fun t => rfl, ?_, ?_, ?_⟩ <;>
    norm_num [calcEnergyCost, flightLegCost, pdv_power, f_speed]

/-- C4: `iptEnergyCost` computes C · (v_max − v_cur)² / (2 · η · 3600)
with the fixed efficiency η = `eta_rf2dc`; a node whose current voltage
equals its target voltage has IPT cost 0, and servicing such a node
deducts exactly the flight-leg cost from the PDV energy. -/
theorem iptEnergyCost_formula :
    (∀ sn : SensorNode,
        iptEnergyCost sn
          = sn.capacitance * (sn.v_max - sn.v_cur) ^ 2 / (2 * eta_rf2dc * 3600))
      ∧ (∀ sn : SensorNode, sn.v_cur = sn.v_max → iptEnergyCost sn = 0)
      ∧ (∀ (dist : Point → Point → ℚ) (s : SimState) (i : ℕ) (sn : SensorNode),
          sn.v_cur = sn.v_max →
            (serviceStep dist s i sn).f_eng
              = s.f_eng - flightLegCost (dist s.pos sn.pos)) := by
  refine ⟨fun sn => rfl, ?_, ?_⟩
  · intro sn h
    simp [iptEnergyCost, h]
  · intro dist s i sn h
    have h0 : iptEnergyCost sn = 0 := by simp [iptEnergyCost, h]
    simp [serviceStep, h0]

/-- Witness for C4: the concrete node at its target voltage has IPT
cost 0 and its service deducts only the flight-leg cost. -/
theorem iptEnergyCost_formula_witness :
    iptEnergyCost chargedNodeW = 0
      ∧ (serviceStep distW (initState [chargedNodeW]) 0 chargedNodeW).f_eng
          = (initState [chargedNodeW]).f_eng
              - flightLegCost (distW (initState [chargedNodeW]).pos chargedNodeW.pos) :=
  ⟨iptEnergyCost_formula.2.1 chargedNodeW rfl,
   iptEnergyCost_formula.2.2 distW (initState [chargedNodeW]) 0 chargedNodeW rfl⟩

/-- C10: each updater modifies only its protected accumulator — the
public fields `pos`, `f_time`, `f_eng`, `f_dist` and the other two
protected accumulators are left unchanged by every one of
`updateFlightTime` (both overloads), `updateEnergy` (both overloads)
and `updateFlightDist`. -/
theorem update_frame (p : PDV) (t t1 t2 e e1 e2 d : ℚ) :
    ((p.updateFlightTime t).pos = p.pos
        ∧ (p.updateFlightTime t).f_time = p.f_time
        ∧ (p.updateFlightTime t).f_eng = p.f_eng
        ∧ (p.updateFlightTime t).f_dist = p.f_dist
        ∧ (p.updateFlightTime t).pdv_energy_ = p.pdv_energy_
        ∧ (p.updateFlightTime t).flight_distance_ = p.flight_distance_)
      ∧ ((p.updateFlightTime2 t1 t2).pos = p.pos
        ∧ (p.updateFlightTime2 t1 t2).f_time = p.f_time
        ∧ (p.updateFlightTime2 t1 t2).f_eng = p.f_eng
        ∧ (p.updateFlightTime2 t1 t2).f_dist = p.f_dist
        ∧ (p.updateFlightTime2 t1 t2).pdv_energy_ = p.pdv_energy_
        ∧ (p.updateFlightTime2 t1 t2).flight_distance_ = p.flight_distance_)
      ∧ ((p.updateEnergy e).pos = p.pos
        ∧ (p.updateEnergy e).f_time = p.f_time
        ∧ (p.updateEnergy e).f_eng = p.f_eng
        ∧ (p.updateEnergy e).f_dist = p.f_dist
        ∧ (p.updateEnergy e).flight_time_ = p.flight_time_
        ∧ (p.updateEnergy e).flight_distance_ = p.flight_distance_)
      ∧ ((p.updateEnergy2 e1 e2).pos = p.pos
        ∧ (p.updateEnergy2 e1 e2).f_time = p.f_time
        ∧ (p.updateEnergy2 e1 e2).f_eng = p.f_eng
        ∧ (p.updateEnergy2 e1 e2).f_dist = p.f_dist
        ∧ (p.updateEnergy2 e1 e2).flight_time_ = p.flight_time_
        ∧ (p.updateEnergy2 e1 e2).flight_distance_ = p.flight_distance_)
      ∧ ((p.updateFlightDist d).pos = p.pos
        ∧ (p.updateFlightDist d).f_time = p.f_time
        ∧ (p.updateFlightDist d).f_eng = p.f_eng
        ∧ (p.updateFlightDist d).f_dist = p.f_dist
        ∧ (p.updateFlightDist d).flight_time_ = p.flight_time_
        ∧ (p.updateFlightDist d).pdv_energy_ = p.pdv_energy_) :=
  ⟨⟨rfl, rfl, rfl, rfl, rfl, rfl⟩, ⟨rfl, rfl, rfl, rfl, rfl, rfl⟩,
   ⟨rfl, rfl, rfl, rfl, rfl, rfl⟩, ⟨rfl, rfl, rfl, rfl, rfl, rfl⟩,
   ⟨rfl, rfl, rfl, rfl, rfl, rfl⟩⟩

/-- C1: at a waypoint whose catalog entry exists, the driver services
the waypoint exactly when the remaining energy is at least the flight
cost to the node plus the IPT cost there plus the flight cost home plus
the safety margin, and returns to home otherwise; on exact equality it
continues. -/
theorem rth_policy_continue_iff (dist : Point → Point → ℚ) (base : Point)
    (es : ℚ) (s : SimState) (i : ℕ) (rest : List ℕ) (sn : SensorNode)
    (h : s.catalog[i]? = some sn) :
    (runPath dist base es s (i :: rest)
        = if flightLegCost (dist s.pos sn.pos) + iptEnergyCost sn
              + flightLegCost (dist sn.pos base) + es ≤ s.f_eng
          then runPath dist base es (serviceStep dist s i sn) rest
          else rth dist base s)
      ∧ (s.f_eng = flightLegCost (dist s.pos sn.pos) + iptEnergyCost sn
              + flightLegCost (dist sn.pos base) + es →
          runPath dist base es s (i :: rest)
            = runPath dist base es (serviceStep dist s i sn) rest) := by
  constructor
  · simp only [runPath, h, eRequired]
  · intro he
    simp only [runPath, h, eRequired]
    rw [if_pos (le_of_eq he.symm)]

/-- Witness for C1: the initial state with the concrete requesting node
at waypoint 0. -/
theorem rth_policy_continue_iff_witness :
    (runPath distW base0 0 (initState [nodeW]) [0]
        = if flightLegCost (distW (initState [nodeW]).pos nodeW.pos)
              + iptEnergyCost nodeW + flightLegCost (distW nodeW.pos base0) + 0
              ≤ (initState [nodeW]).f_eng
          then runPath distW base0 0 (serviceStep distW (initState [nodeW]) 0 nodeW) []
          else rth distW base0 (initState [nodeW]))
      ∧ ((initState [nodeW]).f_eng
            = flightLegCost (distW (initState [nodeW]).pos nodeW.pos)
              + iptEnergyCost nodeW + flightLegCost (distW nodeW.pos base0) + 0 →
          runPath distW base0 0 (initState [nodeW]) [0]
            = runPath distW base0 0 (serviceStep distW (initState [nodeW]) 0 nodeW) []) :=
  rth_policy_continue_iff distW base0 0 (initState [nodeW]) 0 [] nodeW rfl

/-- C5: when fewer than `min_charge_num` (= 20) nodes request service,
the driver refuses to launch — the caller receives
`InsufficientRequests`, the reported completion is 0 %, and the
returned state is the untouched initial state (no PDV or node state
mutated). -/
theorem taskCheck_insufficient_refuses (dist : Point → Point → ℚ) (es : ℚ)
    (sn_list : List SensorNode) (path : List ℕ)
    (h : reqCount sn_list < min_charge_num) :
    (flightSimulation dist es sn_list path).err
        = some SimError.InsufficientRequests
      ∧ (flightSimulation dist es sn_list path).percent = 0
      ∧ (flightSimulation dist es sn_list path).state = initState sn_list := by
  have ht : taskCheck sn_list = false := by
    simp only [taskCheck, decide_eq_false_iff_not]
    omega
  simp [flightSimulation, ht]

/-- Witness for C5: the empty catalog has 0 requesting nodes, below the
threshold of 20. -/
theorem taskCheck_insufficient_refuses_witness :
    (flightSimulation distW 0 [] []).err = some SimError.InsufficientRequests
      ∧ (flightSimulation distW 0 [] []).percent = 0
      ∧ (flightSimulation distW 0 [] []).state = initState [] :=
  taskCheck_insufficient_refuses distW 0 [] []
    (by norm_num [reqCount, min_charge_num])

/-- Membership from a successful indexed lookup. -/
theorem mem_of_lookup {α : Type} :
    ∀ (l : List α) (i : ℕ) (a : α), l[i]? = some a → a ∈ l
  | [], _, _, h => by simp at h
  | x :: _, 0, _, h => by
      simp at h
      simp [h]
  | x :: xs, i + 1, a, h => by
      simp at h
      exact List.mem_cons_of_mem x (mem_of_lookup xs i a h)

/-- Servicing is idempotent on a node. -/
theorem serviceNode_idem (sn : SensorNode) :
    serviceNode (serviceNode sn) = serviceNode sn := rfl

/-- The RTH leg does not touch the catalog or the serviced counter. -/
theorem rth_catalog (dist : Point → Point → ℚ) (base : Point) (s : SimState) :
    (rth dist base s).catalog = s.catalog
      ∧ (rth dist base s).serviced = s.serviced := by
  simp only [rth]
  split <;> exact ⟨rfl, rfl⟩

/-- Both branches of the RTH leg add the same leg time and distance. -/
theorem rth_time_dist (dist : Point → Point → ℚ) (base : Point) (s : SimState) :
    (rth dist base s).f_time = s.f_time + dist s.pos base / f_speed
      ∧ (rth dist base s).f_dist = s.f_dist + dist s.pos base := by
  simp only [rth]
  split <;> exact ⟨rfl, rfl⟩

/-- Helper for C3: along any run, each catalog slot is either untouched
or holds the fully-serviced image of its original node. -/
theorem catalog_all_or_nothing (dist : Point → Point → ℚ) (base : Point) (es : ℚ) :
    ∀ (path : List ℕ) (s : SimState) (j : ℕ),
      (runPath dist base es s path).catalog[j]? = s.catalog[j]?
        ∨ (runPath dist base es s path).catalog[j]?
            = (s.catalog[j]?).map serviceNode
  | [], s, j => by
      left
      rw [show runPath dist base es s [] = rth dist base s from rfl,
          (rth_catalog dist base s).1]
  | i :: rest, s, j => by
      rcases hsn : s.catalog[i]? with _ | sn
      · have hrun : runPath dist base es s (i :: rest)
            = runPath dist base es s rest := by
          simp only [runPath, hsn]
        rw [hrun]
        exact catalog_all_or_nothing dist base es rest s j
      · by_cases hc : eRequired dist base es s sn ≤ s.f_eng
        · have hrun : runPath dist base es s (i :: rest)
              = runPath dist base es (serviceStep dist s i sn) rest := by
            simp only [runPath, hsn, if_pos hc]
          rw [hrun]
          have ih := catalog_all_or_nothing dist base es rest (serviceStep dist s i sn) j
          by_cases hij : i = j
          · subst hij
            have hlen : i < s.catalog.length := (List.getElem?_eq_some.mp hsn).1
            have hset : (serviceStep dist s i sn).catalog[i]?
                = some (serviceNode sn) := by
              show (s.catalog.set i (serviceNode sn))[i]? = some (serviceNode sn)
              simp [List.getElem?_set_eq_of_lt, hlen]
            right
            rcases ih with ih | ih
            · rw [ih, hset, hsn]
              rfl
            · rw [ih, hset, hsn]
              simp [serviceNode_idem]
          · have hset : (serviceStep dist s i sn).catalog[j]? = s.catalog[j]? := by
              show (s.catalog.set i (serviceNode sn))[j]? = s.catalog[j]?
              exact List.getElem?_set_ne hij
            rcases ih with ih | ih
            · left
              rw [ih, hset]
            · right
              rw [ih, hset]
        · have hrun : runPath dist base es s (i :: rest) = rth dist base s := by
            simp only [runPath, hsn, if_neg hc]
          left
          rw [hrun, (rth_catalog dist base s).1]

/-- C3: waypoint service is all-or-nothing — after any run each catalog
slot is either untouched or holds the fully-serviced image of its node
(voltage topped to the target, request flag cleared, marked charged);
and at a waypoint with a catalog entry the driver either applies the
complete service update and continues, or aborts to RTH with no part of
that waypoint's update applied. -/
theorem waypoint_all_or_nothing (dist : Point → Point → ℚ) (base : Point)
    (es : ℚ) (s : SimState) (path : List ℕ) :
    (∀ j : ℕ,
        (runPath dist base es s path).catalog[j]? = s.catalog[j]?
          ∨ (runPath dist base es s path).catalog[j]?
              = (s.catalog[j]?).map serviceNode)
      ∧ (∀ sn : SensorNode,
          (serviceNode sn).v_cur = sn.v_max
            ∧ (serviceNode sn).requests_service = false
            ∧ (serviceNode sn).charged = true)
      ∧ (∀ (i : ℕ) (rest : List ℕ) (sn : SensorNode),
          s.catalog[i]? = some sn →
            runPath dist base es s (i :: rest)
              = runPath dist base es (serviceStep dist s i sn) rest
            ∨ runPath dist base es s (i :: rest) = rth dist base s) := by
  refine ⟨fun j => catalog_all_or_nothing dist base es path s j,
          fun sn => ⟨rfl, rfl, rfl⟩, ?_⟩
  intro i rest sn h
  by_cases hc : eRequired dist base es s sn ≤ s.f_eng
  · left
    simp only [runPath, h, if_pos hc]
  · right
    simp only [runPath, h, if_neg hc]

/-- Witness for C3: the run over the singleton catalog at waypoint 0
either services it completely or aborts to RTH. -/
theorem waypoint_all_or_nothing_witness :
    runPath distW base0 0 (initState [nodeW]) [0]
        = runPath distW base0 0 (serviceStep distW (initState [nodeW]) 0 nodeW) []
      ∨ runPath distW base0 0 (initState [nodeW]) [0]
          = rth distW base0 (initState [nodeW]) :=
  (waypoint_all_or_nothing distW base0 0 (initState [nodeW]) [0]).2.2 0 [] nodeW rfl

/-- Replacing an indexed catalog element changes the requesting count
by the flags of the old and new elements. -/
theorem reqCount_set :
    ∀ (l : List SensorNode) (i : ℕ) (b a : SensorNode), l[i]? = some b →
      reqCount (l.set i a) + (if b.requests_service then 1 else 0)
        = reqCount l + (if a.requests_service then 1 else 0)
  | [], _, _, _, h => by simp at h
  | x :: xs, 0, b, a, h => by
      simp at h
      subst h
      cases ha : a.requests_service <;> cases hx : x.requests_service <;>
        simp [List.set_cons_zero, reqCount, List.countP_cons, ha, hx]
  | x :: xs, i + 1, b, a, h => by
      simp at h
      have ih := reqCount_set xs i b a h
      cases hb : b.requests_service <;> cases ha : a.requests_service <;>
        cases hx : x.requests_service <;>
        simp [List.set_cons_succ, reqCount, List.countP_cons, hb, ha, hx] at ih ⊢ <;>
        omega

/-- Helper for C7: a run preserves the sum of the serviced counter and
the number of still-requesting catalog nodes. -/
theorem serviced_reqCount_inv (dist : Point → Point → ℚ) (base : Point) (es : ℚ) :
    ∀ (path : List ℕ) (s : SimState),
      (runPath dist base es s path).serviced
          + reqCount (runPath dist base es s path).catalog
        = s.serviced + reqCount s.catalog
  | [], s => by
      rw [show runPath dist base es s [] = rth dist base s from rfl,
          (rth_catalog dist base s).1, (rth_catalog dist base s).2]
  | i :: rest, s => by
      rcases hsn : s.catalog[i]? with _ | sn
      · have hrun : runPath dist base es s (i :: rest)
            = runPath dist base es s rest := by
          simp only [runPath, hsn]
        rw [hrun]
        exact serviced_reqCount_inv dist base es rest s
      · by_cases hc : eRequired dist base es s sn ≤ s.f_eng
        · have hrun : runPath dist base es s (i :: rest)
              = runPath dist base es (serviceStep dist s i sn) rest := by
            simp only [runPath, hsn, if_pos hc]
          rw [hrun, serviced_reqCount_inv dist base es rest (serviceStep dist s i sn)]
          have hcnt := reqCount_set s.catalog i sn (serviceNode sn) hsn
          have hsrv : (serviceNode sn).requests_service = false := rfl
          rw [hsrv] at hcnt
          show s.serviced + (if sn.requests_service then 1 else 0)
                + reqCount (s.catalog.set i (serviceNode sn))
              = s.serviced + reqCount s.catalog
          cases hr : sn.requests_service <;> simp [hr] at hcnt ⊢ <;> omega
        · have hrun : runPath dist base es s (i :: rest) = rth dist base s := by
            simp only [runPath, hsn, if_neg hc]
          rw [hrun, (rth_catalog dist base s).1, (rth_catalog dist base s).2]

/-- Helper for C7: the serviced count of a run from the initial state
never exceeds the initial number of requesting nodes. -/
theorem serviced_le_reqCount (dist : Point → Point → ℚ) (es : ℚ)
    (sn_list : List SensorNode) (path : List ℕ) :
    (runPath dist base0 es (initState sn_list) path).serviced
      ≤ reqCount sn_list := by
  have h := serviced_reqCount_inv dist base0 es path (initState sn_list)
  have h0 : (initState sn_list).serviced = 0 := rfl
  have h1 : (initState sn_list).catalog = sn_list := rfl
  rw [h0, h1] at h
  omega

/-- C7: the driver reports a completion percentage equal to
100 · serviced / initially-requesting, and it always lies in [0, 100]. -/
theorem completion_percent_spec (dist : Point → Point → ℚ) (es : ℚ)
    (sn_list : List SensorNode) (path : List ℕ) :
    (flightSimulation dist es sn_list path).percent
        = 100 * ((flightSimulation dist es sn_list path).state.serviced : ℚ)
            / (reqCount sn_list : ℚ)
      ∧ 0 ≤ (flightSimulation dist es sn_list path).percent
      ∧ (flightSimulation dist es sn_list path).percent ≤ 100 := by
  unfold flightSimulation
  split
  next h =>
    have hreq : min_charge_num ≤ reqCount sn_list := by simpa [taskCheck] using h
    have hle := serviced_le_reqCount dist es sn_list path
    have hpos : (0:ℚ) < (reqCount sn_list : ℚ) := by
      have h20 : 0 < reqCount sn_list := by
        have h' : (20:ℕ) ≤ reqCount sn_list := hreq
        omega
      exact_mod_cast h20
    refine ⟨rfl, ?_, ?_⟩
    · show (0:ℚ) ≤ 100
          * ((runPath dist base0 es (initState sn_list) path).serviced : ℚ)
          / (reqCount sn_list : ℚ)
      positivity
    · show 100 * ((runPath dist base0 es (initState sn_list) path).serviced : ℚ)
          / (reqCount sn_list : ℚ) ≤ 100
      rw [div_le_iff₀ hpos]
      have hcast : ((runPath dist base0 es (initState sn_list) path).serviced : ℚ)
          ≤ (reqCount sn_list : ℚ) := by exact_mod_cast hle
      linarith
  next h =>
    refine ⟨?_, ?_, ?_⟩
    · show (0:ℚ) = 100 * ((0:ℕ) : ℚ) / (reqCount sn_list : ℚ)
      simp
    · show (0:ℚ) ≤ 0
      norm_num
    · show (0:ℚ) ≤ 100
      norm_num

/-- Flight-leg costs are non-negative for non-negative distances. -/
theorem flightLegCost_nonneg {d : ℚ} (hd : 0 ≤ d) : 0 ≤ flightLegCost d := by
  unfold flightLegCost calcEnergyCost pdv_power f_speed
  have h1 : (0:ℚ) ≤ d / 2.16e4 := by positivity
  have h2 : (0:ℚ) ≤ d / 2.16e4 + 5.6e-3 := by linarith
  exact mul_nonneg (by norm_num) h2

/-- IPT costs are non-negative for non-negative capacitance. -/
theorem iptEnergyCost_nonneg {sn : SensorNode} (hc : 0 ≤ sn.capacitance) :
    0 ≤ iptEnergyCost sn := by
  unfold iptEnergyCost eta_rf2dc
  have h1 : (0:ℚ) ≤ sn.capacitance * (sn.v_max - sn.v_cur) ^ 2 :=
    mul_nonneg hc (sq_nonneg _)
  exact div_nonneg h1 (by norm_num)

/-- Helper for C6: from any state that can afford its own RTH leg,
every later observable state of the run keeps a non-negative energy,
and the energy never increases from one observable state to the next. -/
theorem energy_invariant_trace (dist : Point → Point → ℚ) (base : Point)
    (es : ℚ) (hd : ∀ p q : Point, 0 ≤ dist p q) (hes : 0 ≤ es) :
    ∀ (path : List ℕ) (s : SimState),
      flightLegCost (dist s.pos base) ≤ s.f_eng →
      (∀ sn ∈ s.catalog, 0 ≤ sn.capacitance) →
      (∀ s' ∈ runTrace dist base es s path, 0 ≤ s'.f_eng)
        ∧ List.Chain' (fun a b => b.f_eng ≤ a.f_eng)
            (s :: runTrace dist base es s path)
  | [], s, hs, _ => by
      have hc0 : 0 ≤ flightLegCost (dist s.pos base) := flightLegCost_nonneg (hd _ _)
      have hr : (rth dist base s).f_eng
          = s.f_eng - flightLegCost (dist s.pos base) := by
        simp only [rth]
        rw [if_pos hs]
      rw [show runTrace dist base es s [] = [rth dist base s] from rfl]
      constructor
      · intro s' hmem
        rw [List.mem_singleton] at hmem
        subst hmem
        rw [hr]
        linarith
      · refine List.chain'_cons.mpr ⟨?_, List.chain'_singleton _⟩
        rw [hr]
        linarith
  | i :: rest, s, hs, hcat => by
      rcases hsn : s.catalog[i]? with _ | sn
      · have htr : runTrace dist base es s (i :: rest)
            = runTrace dist base es s rest := by
          simp only [runTrace, hsn]
        rw [htr]
        exact energy_invariant_trace dist base es hd hes rest s hs hcat
      · by_cases hc : eRequired dist base es s sn ≤ s.f_eng
        · have htr : runTrace dist base es s (i :: rest)
              = serviceStep dist s i sn
                  :: runTrace dist base es (serviceStep dist s i sn) rest := by
            simp only [runTrace, hsn, if_pos hc]
          have hcap : 0 ≤ sn.capacitance :=
            hcat sn (mem_of_lookup s.catalog i sn hsn)
          have hto : 0 ≤ flightLegCost (dist s.pos sn.pos) :=
            flightLegCost_nonneg (hd _ _)
          have hipt : 0 ≤ iptEnergyCost sn := iptEnergyCost_nonneg hcap
          have hhome : 0 ≤ flightLegCost (dist sn.pos base) :=
            flightLegCost_nonneg (hd _ _)
          have hreq : flightLegCost (dist s.pos sn.pos) + iptEnergyCost sn
              + flightLegCost (dist sn.pos base) + es ≤ s.f_eng := hc
          have hfe : (serviceStep dist s i sn).f_eng
              = s.f_eng - flightLegCost (dist s.pos sn.pos) - iptEnergyCost sn := rfl
          have hnext : flightLegCost (dist (serviceStep dist s i sn).pos base)
              ≤ (serviceStep dist s i sn).f_eng := by
            rw [show (serviceStep dist s i sn).pos = sn.pos from rfl, hfe]
            linarith
          have hcat' : ∀ x ∈ (serviceStep dist s i sn).catalog, 0 ≤ x.capacitance := by
            intro x hx
            rcases List.mem_or_eq_of_mem_set hx with hmem | hmem
            · exact hcat x hmem
            · subst hmem
              exact hcap
          have ih := energy_invariant_trace dist base es hd hes rest
            (serviceStep dist s i sn) hnext hcat'
          rw [htr]
          constructor
          · intro s' hmem
            rcases List.mem_cons.mp hmem with hmem | hmem
            · subst hmem
              rw [hfe]
              linarith
            · exact ih.1 s' hmem
          · refine List.chain'_cons.mpr ⟨?_, ih.2⟩
            rw [hfe]
            linarith
        · have htr : runTrace dist base es s (i :: rest) = [rth dist base s] := by
            simp only [runTrace, hsn, if_neg hc]
          have hc0 : 0 ≤ flightLegCost (dist s.pos base) := flightLegCost_nonneg (hd _ _)
          have hr : (rth dist base s).f_eng
              = s.f_eng - flightLegCost (dist s.pos base) := by
            simp only [rth]
            rw [if_pos hs]
          rw [htr]
          constructor
          · intro s' hmem
            rw [List.mem_singleton] at hmem
            subst hmem
            rw [hr]
            linarith
          · refine List.chain'_cons.mpr ⟨?_, List.chain'_singleton _⟩
            rw [hr]
            linarith

/-- C6: in every simulation run from the initial state (full energy,
at base, with a metric distance, a non-negative safety margin and
non-negative node capacitances), the remaining energy is non-negative
at every observable moment — the initial state and every state of the
run trace — and it never increases from one observable state to the
next. -/
theorem energy_nonneg_monotone (dist : Point → Point → ℚ) (es : ℚ)
    (sn_list : List SensorNode) (path : List ℕ)
    (hd : ∀ p q : Point, 0 ≤ dist p q) (hdd : ∀ p : Point, dist p p = 0)
    (hes : 0 ≤ es) (hcat : ∀ sn ∈ sn_list, 0 ≤ sn.capacitance) :
    (∀ s' ∈ initState sn_list :: runTrace dist base0 es (initState sn_list) path,
        0 ≤ s'.f_eng)
      ∧ List.Chain' (fun a b => b.f_eng ≤ a.f_eng)
          (initState sn_list :: runTrace dist base0 es (initState sn_list) path) := by
  have hinit : flightLegCost (dist (initState sn_list).pos base0)
      ≤ (initState sn_list).f_eng := by
    rw [show (initState sn_list).pos = base0 from rfl, hdd base0,
        show (initState sn_list).f_eng = 187 from rfl]
    unfold flightLegCost calcEnergyCost pdv_power f_speed
    norm_num
  have h := energy_invariant_trace dist base0 es hd hes path (initState sn_list)
    hinit hcat
  refine ⟨?_, h.2⟩
  intro s' hmem
  rcases List.mem_cons.mp hmem with hmem | hmem
  · subst hmem
    show (0:ℚ) ≤ 187
    norm_num
  · exact h.1 s' hmem

/-- Witness for C6: a singleton requesting node under the degenerate
distance function. -/
theorem energy_nonneg_monotone_witness :
    (∀ s' ∈ initState [nodeW] :: runTrace distW base0 0 (initState [nodeW]) [0],
        0 ≤ s'.f_eng)
      ∧ List.Chain' (fun a b => b.f_eng ≤ a.f_eng)
          (initState [nodeW] :: runTrace distW base0 0 (initState [nodeW]) [0]) :=
  energy_nonneg_monotone distW 0 [nodeW] [0]
    (fun _ _ => le_refl 0) (fun _ => rfl) (le_refl 0)
    (by
      intro sn hmem
      rw [List.mem_singleton] at hmem
      subst hmem
      norm_num [nodeW])

/-- Helper for C8: flight time and flight distance never decrease from
one observable state of a run to the next. -/
theorem time_dist_trace (dist : Point → Point → ℚ) (base : Point) (es : ℚ)
    (hd : ∀ p q : Point, 0 ≤ dist p q) :
    ∀ (path : List ℕ) (s : SimState),
      List.Chain' (fun a b => a.f_time ≤ b.f_time ∧ a.f_dist ≤ b.f_dist)
        (s :: runTrace dist base es s path)
  | [], s => by
      have hdiv : (0:ℚ) ≤ dist s.pos base / f_speed :=
        div_nonneg (hd _ _) (by norm_num [f_speed])
      rw [show runTrace dist base es s [] = [rth dist base s] from rfl]
      refine List.chain'_cons.mpr ⟨?_, List.chain'_singleton _⟩
      rw [(rth_time_dist dist base s).1, (rth_time_dist dist base s).2]
      constructor
      · linarith
      · linarith [hd s.pos base]
  | i :: rest, s => by
      rcases hsn : s.catalog[i]? with _ | sn
      · have htr : runTrace dist base es s (i :: rest)
            = runTrace dist base es s rest := by
          simp only [runTrace, hsn]
        rw [htr]
        exact time_dist_trace dist base es hd rest s
      · by_cases hc : eRequired dist base es s sn ≤ s.f_eng
        · have htr : runTrace dist base es s (i :: rest)
              = serviceStep dist s i sn
                  :: runTrace dist base es (serviceStep dist s i sn) rest := by
            simp only [runTrace, hsn, if_pos hc]
          have hdiv : (0:ℚ) ≤ dist s.pos sn.pos / f_speed :=
            div_nonneg (hd _ _) (by norm_num [f_speed])
          rw [htr]
          refine List.chain'_cons.mpr
            ⟨?_, time_dist_trace dist base es hd rest (serviceStep dist s i sn)⟩
          rw [show (serviceStep dist s i sn).f_time
                = s.f_time + dist s.pos sn.pos / f_speed from rfl,
              show (serviceStep dist s i sn).f_dist
                = s.f_dist + dist s.pos sn.pos from rfl]
          constructor
          · linarith
          · linarith [hd s.pos sn.pos]
        · have htr : runTrace dist base es s (i :: rest) = [rth dist base s] := by
            simp only [runTrace, hsn, if_neg hc]
          have hdiv : (0:ℚ) ≤ dist s.pos base / f_speed :=
            div_nonneg (hd _ _) (by norm_num [f_speed])
          rw [htr]
          refine List.chain'_cons.mpr ⟨?_, List.chain'_singleton _⟩
          rw [(rth_time_dist dist base s).1, (rth_time_dist dist base s).2]
          constructor
          · linarith
          · linarith [hd s.pos base]

/-- C8: in every simulation run from the initial state, under a
non-negative distance function, the PDV flight time and flight distance
are non-decreasing: every transition between consecutive observable
states leaves each of them at least its previous value. -/
theorem time_dist_monotone (dist : Point → Point → ℚ) (es : ℚ)
    (sn_list : List SensorNode) (path : List ℕ)
    (hd : ∀ p q : Point, 0 ≤ dist p q) :
    List.Chain' (fun a b => a.f_time ≤ b.f_time ∧ a.f_dist ≤ b.f_dist)
      (initState sn_list :: runTrace dist base0 es (initState sn_list) path) :=
  time_dist_trace dist base0 es hd path (initState sn_list)

/-- Witness for C8: a singleton requesting node under the degenerate
distance function. -/
theorem time_dist_monotone_witness :
    List.Chain' (fun a b => a.f_time ≤ b.f_time ∧ a.f_dist ≤ b.f_dist)
      (initState [nodeW] :: runTrace distW base0 0 (initState [nodeW]) [0]) :=
  time_dist_monotone distW 0 [nodeW] [0] (fun _ _ => le_refl 0)

/-- The final state of a run is the last observable state of its trace. -/
theorem runPath_eq_trace_last (dist : Point → Point → ℚ) (base : Point) (es : ℚ) :
    ∀ (path : List ℕ) (s : SimState),
      runPath dist base es s path = (runTrace dist base es s path).getLastD s
  | [], s => by
      rw [show runPath dist base es s [] = rth dist base s from rfl,
          show runTrace dist base es s [] = [rth dist base s] from rfl]
      rfl
  | i :: rest, s => by
      rcases hsn : s.catalog[i]? with _ | sn
      · have h1 : runPath dist base es s (i :: rest)
            = runPath dist base es s rest := by
          simp only [runPath, hsn]
        have h2 : runTrace dist base es s (i :: rest)
            = runTrace dist base es s rest := by
          simp only [runTrace, hsn]
        rw [h1, h2]
        exact runPath_eq_trace_last dist base es rest s
      · by_cases hc : eRequired dist base es s sn ≤ s.f_eng
        · have h1 : runPath dist base es s (i :: rest)
              = runPath dist base es (serviceStep dist s i sn) rest := by
            simp only [runPath, hsn, if_pos hc]
          have h2 : runTrace dist base es s (i :: rest)
              = serviceStep dist s i sn
                  :: runTrace dist base es (serviceStep dist s i sn) rest := by
            simp only [runTrace, hsn, if_pos hc]
          rw [h1, h2, List.getLastD_cons]
          exact runPath_eq_trace_last dist base es rest (serviceStep dist s i sn)
        · have h1 : runPath dist base es s (i :: rest) = rth dist base s := by
            simp only [runPath, hsn, if_neg hc]
          have h2 : runTrace dist base es s (i :: rest) = [rth dist base s] := by
            simp only [runTrace, hsn, if_neg hc]
          rw [h1, h2]
          rfl

end Wsnr
